import Mathlib

/-!
Shallow embedding of the signaling/session relay server of
`src/server/websocket-server.js` (class `OptimizedWebSocketServer`).

JavaScript `Map` objects are modelled as association lists with
insertion-order semantics: `set` replaces the first binding in place or
appends, `get` reads the first binding, `delete` removes the binding.
Client ids, session ids and viewer ids are all JavaScript strings and are
modelled by `String`; a WebSocket transport handle (`ws`) is modelled by an
opaque `Nat` identity, with the set of currently-open handles
(`readyState === OPEN`) carried in the server state.  Every handler returns
the new server state together with the list of frames written, as pairs
`(transport handle, frame)`.
-/

namespace Relay

/-- JS `Map.prototype.get`: first binding of the key, if any. -/
def mGet {α β : Type} [DecidableEq α] : List (α × β) → α → Option β
  | [], _ => none
  | (k', v) :: rest, k => if k = k' then some v else mGet rest k

/-- JS `Map.prototype.set`: replace the first binding in place, else append. -/
def mSet {α β : Type} [DecidableEq α] : List (α × β) → α → β → List (α × β)
  | [], k, v => [(k, v)]
  | (k', v') :: rest, k, v =>
      if k = k' then (k, v) :: rest else (k', v') :: mSet rest k v

/-- JS `Map.prototype.delete`: remove the first binding of the key. -/
def mDelete {α β : Type} [DecidableEq α] : List (α × β) → α → List (α × β)
  | [], _ => []
  | (k', v) :: rest, k => if k = k' then rest else (k', v) :: mDelete rest k

/-- JS `Map.prototype.has`. -/
def mHas {α β : Type} [DecidableEq α] (m : List (α × β)) (k : α) : Bool :=
  (mGet m k).isSome

/-- JS `new Set([...])` construction: keep the first occurrence of each element. -/
def dedupFirstAux {α : Type} [DecidableEq α] (seen : List α) : List α → List α
  | [] => []
  | a :: rest =>
      if a ∈ seen then dedupFirstAux seen rest
      else a :: dedupFirstAux (a :: seen) rest

def dedupFirst {α : Type} [DecidableEq α] (l : List α) : List α :=
  dedupFirstAux [] l

/-- The role recorded in `client.type` (`"host"` / `"viewer"`). -/
inductive Role where
  | host
  | viewer
deriving DecidableEq, Repr

/-- One entry of `this.clients`: per-connection record created on accept. -/
structure Client where
  ws : Nat
  sessionId : Option String
  ctype : Option Role
  viewerId : Option String
  connectedAt : Nat
  lastPong : Nat
deriving DecidableEq, Repr

/-- One entry of `this.sessions`, with the per-session `stats` object inlined. -/
structure Session where
  hostClientId : String
  hostWs : Nat
  viewers : List (String × Nat)
  createdAt : Nat
  totalViewers : Nat
  peakViewers : Nat
  dataTransferred : Nat
deriving DecidableEq, Repr

/-- Frames the server writes to a transport (JSON objects keyed by `t`). -/
inductive Msg where
  | hostReadyAck (s : String)
  | viewerJoined (viewerId : String) (viewerCount : Nat)
  | viewerJoinedAck (s uid : String)
  | offer (s d hostId : String)
  | answer (s d viewerId : String)
  | ice (s d : String) (fromHost : Bool) (viewerId : Option String)
  | cursor (uid pos : String)
  | viewerCountChanged (s : String) (count : Nat)
  | hostDisconnected (s : String)
  | pong
  | error (message : String)
  | probe
deriving DecidableEq, Repr

/-- Parsed inbound frames, discriminated by their `t` field. -/
inductive InMsg where
  | hostReady (s : String)
  | viewerJoin (s uid : String)
  | offer (s d targetViewerId : String)
  | answer (s d : String)
  | ice (s d targetViewerId : String)
  | cursor (uid pos : String)
  | stats (s : String) (bytesTransferred : Option Nat)
  | ping
  | unknown
deriving DecidableEq, Repr

/-- The mutable state of `OptimizedWebSocketServer`. -/
structure SState where
  sessions : List (String × Session)
  clients : List (String × Client)
  clientToSession : List (String × String)
  clientToViewerId : List (String × String)
  openWs : List Nat
  totalConnections : Nat
  activeSessions : Nat
deriving DecidableEq, Repr

/-- The server state right after construction: every map empty. -/
def initState : SState :=
  { sessions := [], clients := [], clientToSession := [], clientToViewerId := [],
    openWs := [], totalConnections := 0, activeSessions := 0 }

/-- `sendToClient(clientId, message)`: looked up in `this.clients`, written
only when the client's socket is `OPEN`. -/
def sendToClient (st : SState) (clientId : String) (m : Msg) : List (Nat × Msg) :=
  match mGet st.clients clientId with
  | some c => if st.openWs.contains c.ws then [(c.ws, m)] else []
  | none => []

/-- `sendToClient` applied to a possibly-`null` client id. -/
def sendToClientOpt (st : SState) (clientId : Option String) (m : Msg) :
    List (Nat × Msg) :=
  match clientId with
  | some cid => sendToClient st cid m
  | none => []

/-- `sendError(ws, message)`: written directly to a transport when it is open. -/
def sendError (st : SState) (ws : Nat) (message : String) : List (Nat × Msg) :=
  if st.openWs.contains ws then [(ws, Msg.error message)] else []

/-- `getViewerClientId(viewerWs)`: scan `this.clients` in insertion order for
the entry holding this transport. -/
def getViewerClientId (st : SState) (ws : Nat) : Option String :=
  (st.clients.find? (fun p => p.2.ws == ws)).map Prod.fst

/-- `handleHostReady(clientId, message)`: create the session on first
`host-ready`, otherwise re-bind `hostClientId`/`hostWs`; then record the
role on the client, update `clientToSession`, and ack the sender. -/
def handleHostReady (st : SState) (clientId s : String) (now : Nat) :
    SState × List (Nat × Msg) :=
  match mGet st.clients clientId with
  | none => (st, [])
  | some client =>
    let st1 :=
      match mGet st.sessions s with
      | none =>
          { st with
            sessions := mSet st.sessions s
              { hostClientId := clientId, hostWs := client.ws, viewers := [],
                createdAt := now, totalViewers := 0, peakViewers := 0,
                dataTransferred := 0 },
            activeSessions := st.activeSessions + 1 }
      | some sess =>
          { st with
            sessions := mSet st.sessions s
              { sess with hostClientId := clientId, hostWs := client.ws } }
    let st2 :=
      { st1 with
        clients := mSet st1.clients clientId
          { client with sessionId := some s, ctype := some Role.host },
        clientToSession := mSet st1.clientToSession clientId s }
    (st2, sendToClient st2 clientId (Msg.hostReadyAck s))

/-- `handleViewerJoin(clientId, message)`: unknown session yields the
`sendError` reply; otherwise the viewer is (unconditionally) inserted into
the session's viewer map, the counters updated, the host notified and the
sender acked.  (With no registered client the source would throw on
`client.ws`; `handleMessage` guards that case before dispatch.) -/
def handleViewerJoin (st : SState) (clientId s uid : String) :
    SState × List (Nat × Msg) :=
  match mGet st.clients clientId with
  | none => (st, [])
  | some client =>
    match mGet st.sessions s with
    | none => (st, sendError st client.ws "Session not found or client invalid")
    | some sess =>
      let viewers1 := mSet sess.viewers uid client.ws
      let sess1 :=
        { sess with
          viewers := viewers1,
          totalViewers := sess.totalViewers + 1,
          peakViewers := max sess.peakViewers viewers1.length }
      let st1 :=
        { st with
          sessions := mSet st.sessions s sess1,
          clients := mSet st.clients clientId
            { client with sessionId := some s, ctype := some Role.viewer,
                          viewerId := some uid },
          clientToSession := mSet st.clientToSession clientId s,
          clientToViewerId := mSet st.clientToViewerId clientId uid }
      (st1,
        sendToClient st1 sess.hostClientId (Msg.viewerJoined uid viewers1.length)
          ++ sendToClient st1 clientId (Msg.viewerJoinedAck s uid))

/-- `handleOffer(clientId, message)`: only the session's registered host may
send; the offer is forwarded verbatim to the target viewer's connection,
augmented with the host's client id, and dropped if the target is absent. -/
def handleOffer (st : SState) (clientId s d targetViewerId : String) :
    SState × List (Nat × Msg) :=
  match mGet st.sessions s with
  | none => (st, [])
  | some sess =>
    if sess.hostClientId = clientId then
      match mGet sess.viewers targetViewerId with
      | some vws =>
          (st, sendToClientOpt st (getViewerClientId st vws) (Msg.offer s d clientId))
      | none => (st, [])
    else (st, [])

/-- `handleAnswer(clientId, message)`: forwarded to the session's host,
augmented with the sender's viewer id from `clientToViewerId`. -/
def handleAnswer (st : SState) (clientId s d : String) :
    SState × List (Nat × Msg) :=
  match mGet st.clientToViewerId clientId, mGet st.sessions s with
  | some vid, some sess =>
      (st, sendToClient st sess.hostClientId (Msg.answer s d vid))
  | _, _ => (st, [])

/-- `handleIceCandidate(clientId, message)`: the session is resolved from the
client's own `sessionId`; a host's candidate goes to the named target viewer,
a viewer's candidate goes to the host. -/
def handleIceCandidate (st : SState) (clientId s d targetViewerId : String) :
    SState × List (Nat × Msg) :=
  match mGet st.clients clientId with
  | none => (st, [])
  | some client =>
    match client.sessionId with
    | none => (st, [])
    | some sid =>
      match mGet st.sessions sid with
      | none => (st, [])
      | some sess =>
        match client.ctype with
        | some Role.host =>
            match mGet sess.viewers targetViewerId with
            | some vws =>
                (st, sendToClientOpt st (getViewerClientId st vws)
                       (Msg.ice s d true none))
            | none => (st, [])
        | some Role.viewer =>
            (st, sendToClient st sess.hostClientId
                   (Msg.ice s d false client.viewerId))
        | none => (st, [])

/-- `handleCursor(clientId, message)`: the recipient set is built from
`session.hostClientId` and the *keys of the viewer map* (viewer uids), the
sender's client id is removed, and each member is fed to `sendToClient`. -/
def handleCursor (st : SState) (clientId uid pos : String) :
    SState × List (Nat × Msg) :=
  match mGet st.clients clientId with
  | none => (st, [])
  | some client =>
    match client.sessionId with
    | none => (st, [])
    | some sid =>
      match mGet st.sessions sid with
      | none => (st, [])
      | some sess =>
        let recipients :=
          (dedupFirst (sess.hostClientId :: sess.viewers.map Prod.fst)).filter
            (fun r => r ≠ clientId)
        (st, (recipients.map (fun r => sendToClient st r (Msg.cursor uid pos))).flatten)

/-- `handleStats(clientId, message)`: if the named session exists, add
`stats.bytesTransferred || 0` onto its `dataTransferred`; no reply, and no
check that the sender is the session's host. -/
def handleStats (st : SState) (_clientId s : String) (bytesTransferred : Option Nat) :
    SState × List (Nat × Msg) :=
  match mGet st.sessions s with
  | none => (st, [])
  | some sess =>
      ({ st with
         sessions := mSet st.sessions s
           { sess with dataTransferred := sess.dataTransferred + bytesTransferred.getD 0 } },
       [])

/-- Lines 359-361 of `handleDisconnection`: drop the client from the three
registry maps (these run whether or not the client was found). -/
def finalCleanup (st : SState) (clientId : String) : SState :=
  { st with
    clients := mDelete st.clients clientId,
    clientToSession := mDelete st.clientToSession clientId,
    clientToViewerId := mDelete st.clientToViewerId clientId }

/-- `handleDisconnection(clientId, ...)`: a closing host notifies every
viewer of its session (resolved through `getViewerClientId`) and deletes the
session; a closing viewer is removed from its session's viewer map and the
host is told the new count; finally the registry maps forget the client. -/
def handleDisconnection (st : SState) (clientId : String) :
    SState × List (Nat × Msg) :=
  match mGet st.clients clientId with
  | none => (finalCleanup st clientId, [])
  | some client =>
    let step1 : SState × List (Nat × Msg) :=
      match client.sessionId with
      | none => (st, [])
      | some sid =>
        match mGet st.sessions sid with
        | none => (st, [])
        | some sess =>
          match client.ctype with
          | some Role.host =>
              ({ st with
                 sessions := mDelete st.sessions sid,
                 activeSessions := st.activeSessions - 1 },
               (sess.viewers.map (fun p =>
                  sendToClientOpt st (getViewerClientId st p.2)
                    (Msg.hostDisconnected sid))).flatten)
          | some Role.viewer =>
              let sess1 :=
                { sess with
                  viewers :=
                    match client.viewerId with
                    | some vid => mDelete sess.viewers vid
                    | none => sess.viewers }
              let st1 := { st with sessions := mSet st.sessions sid sess1 }
              (st1, sendToClient st1 sess.hostClientId
                      (Msg.viewerCountChanged sid sess1.viewers.length))
          | none => (st, [])
    (finalCleanup step1.1 clientId, step1.2)

/-- The `pong` listener: refresh the client's `lastPong` timestamp. -/
def handlePong (st : SState) (clientId : String) (now : Nat) : SState :=
  match mGet st.clients clientId with
  | none => st
  | some client =>
      { st with clients := mSet st.clients clientId { client with lastPong := now } }

/-- `handleMessage(clientId, message)`: drop if the client is unregistered,
else dispatch on the frame's `t` discriminator (unknown tags only log). -/
def handleMessage (st : SState) (clientId : String) (m : InMsg) (now : Nat) :
    SState × List (Nat × Msg) :=
  match mGet st.clients clientId with
  | none => (st, [])
  | some _ =>
    match m with
    | InMsg.hostReady s => handleHostReady st clientId s now
    | InMsg.viewerJoin s uid => handleViewerJoin st clientId s uid
    | InMsg.offer s d t => handleOffer st clientId s d t
    | InMsg.answer s d => handleAnswer st clientId s d
    | InMsg.ice s d t => handleIceCandidate st clientId s d t
    | InMsg.cursor uid pos => handleCursor st clientId uid pos
    | InMsg.stats s b => handleStats st clientId s b
    | InMsg.ping => (st, sendToClient st clientId Msg.pong)
    | InMsg.unknown => (st, [])

/-- The `connection` listener: register the client record and count it. -/
def onConnect (st : SState) (clientId : String) (ws now : Nat) : SState :=
  { st with
    clients := mSet st.clients clientId
      { ws := ws, sessionId := none, ctype := none, viewerId := none,
        connectedAt := now, lastPong := now },
    totalConnections := st.totalConnections + 1,
    openWs := if st.openWs.contains ws then st.openWs else ws :: st.openWs }

/-- A transport close: the socket leaves the open set, then the `close`
listener runs `handleDisconnection`. -/
def markClosed (st : SState) (clientId : String) : SState :=
  match mGet st.clients clientId with
  | none => st
  | some c => { st with openWs := st.openWs.filter (fun w => w ≠ c.ws) }

/-- The ordinary cleanup path for a closing transport. -/
def onClose (st : SState) (clientId : String) : SState × List (Nat × Msg) :=
  handleDisconnection (markClosed st clientId) clientId

/-- `setInterval(..., 30000)` period of the health-check sweep, in ms. -/
def heartbeatIntervalMs : Nat := 30000

/-- The `60000` ms staleness bound tested against `Date.now() - lastPong`. -/
def heartbeatTimeoutMs : Nat := 60000

/-- One health-check tick over a snapshot of `this.clients`: open sockets
whose last pong is older than the timeout are terminated (socket closed now;
their `close` events then run the ordinary cleanup path), other open sockets
are pinged, and entries whose socket is no longer open are dropped.  Returns
the state, the probes written, and the terminated client ids. -/
def healthTick (st : SState) (now : Nat) :
    SState × List (Nat × Msg) × List String :=
  let isStale := fun (c : Client) => decide (heartbeatTimeoutMs < now - c.lastPong)
  let isOpen := fun (c : Client) => st.openWs.contains c.ws
  let staleEntries := st.clients.filter (fun p => isOpen p.2 && isStale p.2)
  let probes :=
    (st.clients.filter (fun p => isOpen p.2 && !isStale p.2)).map
      (fun p => (p.2.ws, Msg.probe))
  let staleWs := staleEntries.map (fun p => p.2.ws)
  ({ st with
     clients := st.clients.filter (fun p => isOpen p.2),
     openWs := st.openWs.filter (fun w => !staleWs.contains w) },
   probes, staleEntries.map Prod.fst)

/-- External events driving the server. -/
inductive Ev where
  | connect (clientId : String) (ws now : Nat)
  | inMsg (clientId : String) (m : InMsg) (now : Nat)
  | closeEv (clientId : String)
  | pongEv (clientId : String) (now : Nat)
  | tick (now : Nat)
deriving DecidableEq, Repr

/-- State transition of the server on one event; a tick's terminations are
followed by their `close` events, which run `handleDisconnection` — the same
cleanup path as an ordinary close. -/
def stepSt (st : SState) (ev : Ev) : SState :=
  match ev with
  | Ev.connect cid ws now => onConnect st cid ws now
  | Ev.inMsg cid m now => (handleMessage st cid m now).1
  | Ev.closeEv cid => (onClose st cid).1
  | Ev.pongEv cid now => handlePong st cid now
  | Ev.tick now =>
      let r := healthTick st now
      r.2.2.foldl (fun s c => (handleDisconnection s c).1) r.1

/-- Can a frame handed to `sendToClient` via `getViewerClientId` on this
transport handle actually be delivered on that same handle? -/
def viewerDeliverable (st : SState) (vws : Nat) : Bool :=
  match getViewerClientId st vws with
  | some cid =>
      match mGet st.clients cid with
      | some c => c.ws == vws && st.openWs.contains vws
      | none => false
  | none => false

/-- Well-formedness of the session table: session ids are unique, and every
session's peak-viewer counter dominates its current viewer count. -/
def SessionsWF (st : SState) : Prop :=
  (st.sessions.map Prod.fst).Nodup ∧
    ∀ p ∈ st.sessions, p.2.viewers.length ≤ p.2.peakViewers

instance (st : SState) : Decidable (SessionsWF st) := by
  unfold SessionsWF; infer_instance

/-- A host client record bound to session `"abc"` on transport `0`. -/
def cH : Client :=
  { ws := 0, sessionId := some "abc", ctype := some Role.host,
    viewerId := none, connectedAt := 0, lastPong := 0 }

/-- A viewer client record (`"v1"` on transport `1`). -/
def cV1 : Client :=
  { ws := 1, sessionId := some "abc", ctype := some Role.viewer,
    viewerId := some "v1", connectedAt := 0, lastPong := 0 }

/-- A viewer client record (`"v2"` on transport `2`). -/
def cV2 : Client :=
  { ws := 2, sessionId := some "abc", ctype := some Role.viewer,
    viewerId := some "v2", connectedAt := 0, lastPong := 0 }

/-- A freshly accepted, unassigned client record on transport `3`. -/
def cNew : Client :=
  { ws := 3, sessionId := none, ctype := none, viewerId := none,
    connectedAt := 0, lastPong := 0 }

/-- Session `"abc"`: host `"h"`, viewers `"v1" ↦ 1` and `"v2" ↦ 2`. -/
def sessAbc : Session :=
  { hostClientId := "h", hostWs := 0, viewers := [("v1", 1), ("v2", 2)],
    createdAt := 0, totalViewers := 2, peakViewers := 2, dataTransferred := 0 }

/-- A concrete reachable-shaped state: host `"h"` and viewers `"c1"`/`"c2"`
joined to session `"abc"`, all three sockets open. -/
def stBase : SState :=
  { sessions := [("abc", sessAbc)],
    clients := [("h", cH), ("c1", cV1), ("c2", cV2)],
    clientToSession := [("h", "abc"), ("c1", "abc"), ("c2", "abc")],
    clientToViewerId := [("c1", "v1"), ("c2", "v2")],
    openWs := [0, 1, 2], totalConnections := 3, activeSessions := 1 }

/-- `stBase` plus a fourth, not-yet-assigned connection `"c3"`. -/
def stJoin : SState :=
  { stBase with clients := stBase.clients ++ [("c3", cNew)], openWs := [0, 1, 2, 3] }

/-- Host `A` opens session `"abc"`, viewer `V` joins as `"v1"`, then host `B`
re-announces readiness for `"abc"` (host reconnect), replacing `A`. -/
def evs3 : List Ev :=
  [Ev.connect "A" 0 0, Ev.inMsg "A" (InMsg.hostReady "abc") 1,
   Ev.connect "V" 1 2, Ev.inMsg "V" (InMsg.viewerJoin "abc" "v1") 3,
   Ev.connect "B" 2 4, Ev.inMsg "B" (InMsg.hostReady "abc") 5]

/-- The state reached by `evs3` from the initial state. -/
def st3 : SState := evs3.foldl stepSt initState

/-- Two open connections, one (`"h"`) with a stale last pong relative to
`now = 100001`, the other (`"c1"`) fresh. -/
def stHb : SState :=
  { stBase with clients := [("h", cH), ("c1", { cV1 with lastPong := 100000 })] }

theorem mGet_mSet_self {α β : Type} [DecidableEq α] (m : List (α × β)) (k : α) (v : β) :
    mGet (mSet m k v) k = some v := by
  induction m with
  | nil => simp [mGet, mSet]
  | cons p rest ih =>
      obtain ⟨k', v'⟩ := p
      by_cases h : k = k' <;> simp [mGet, mSet, h, ih]

theorem mGet_mSet_ne {α β : Type} [DecidableEq α] (m : List (α × β)) (k k' : α) (v : β)
    (h : k' ≠ k) : mGet (mSet m k v) k' = mGet m k' := by
  induction m with
  | nil => simp [mGet, mSet, h]
  | cons p rest ih =>
      obtain ⟨k₀, v₀⟩ := p
      by_cases hk : k = k₀
      · subst hk; simp [mGet, mSet, h]
      · by_cases hk' : k' = k₀ <;> simp [mGet, mSet, hk, hk', ih]

theorem mem_mSet {α β : Type} [DecidableEq α] {m : List (α × β)} {k : α} {v : β}
    {p : α × β} (h : p ∈ mSet m k v) : p = (k, v) ∨ p ∈ m := by
  induction m with
  | nil => simpa [mSet] using h
  | cons q rest ih =>
      obtain ⟨k₀, v₀⟩ := q
      by_cases hk : k = k₀
      · simp only [mSet, if_pos hk, List.mem_cons] at h
        rcases h with h | h
        · exact Or.inl h
        · exact Or.inr (List.mem_cons_of_mem _ h)
      · simp only [mSet, if_neg hk, List.mem_cons] at h
        rcases h with h | h
        · exact Or.inr (by simp [h])
        · rcases ih h with h' | h'
          · exact Or.inl h'
          · exact Or.inr (List.mem_cons_of_mem _ h')

theorem mem_keys_mSet {α β : Type} [DecidableEq α] {m : List (α × β)} {k a : α} {v : β}
    (h : a ∈ (mSet m k v).map Prod.fst) : a = k ∨ a ∈ m.map Prod.fst := by
  rcases List.mem_map.mp h with ⟨p, hp, rfl⟩
  rcases mem_mSet hp with rfl | hp'
  · exact Or.inl rfl
  · exact Or.inr (List.mem_map_of_mem _ hp')

theorem keys_mSet_nodup {α β : Type} [DecidableEq α] {m : List (α × β)} (k : α) (v : β)
    (h : (m.map Prod.fst).Nodup) : ((mSet m k v).map Prod.fst).Nodup := by
  induction m with
  | nil => simp [mSet]
  | cons p rest ih =>
      obtain ⟨k₀, v₀⟩ := p
      simp only [List.map_cons, List.nodup_cons] at h
      by_cases hk : k = k₀
      · subst hk
        simpa [mSet, List.nodup_cons] using h
      · simp only [mSet, if_neg hk, List.map_cons]
        refine List.nodup_cons.mpr ⟨?_, ih h.2⟩
        intro hmem
        rcases mem_keys_mSet hmem with rfl | hmem'
        · exact hk rfl
        · exact h.1 hmem'

theorem mSet_length_of_present {α β : Type} [DecidableEq α] {m : List (α × β)} {k : α}
    (v : β) (h : (mGet m k).isSome) : (mSet m k v).length = m.length := by
  induction m with
  | nil => simp [mGet] at h
  | cons p rest ih =>
      obtain ⟨k₀, v₀⟩ := p
      by_cases hk : k = k₀
      · simp [mSet, hk]
      · simp only [mGet, if_neg hk] at h
        simp [mSet, hk, ih h]

theorem mDelete_sublist {α β : Type} [DecidableEq α] (m : List (α × β)) (k : α) :
    (mDelete m k).Sublist m := by
  induction m with
  | nil => simp [mDelete]
  | cons p rest ih =>
      obtain ⟨k₀, v₀⟩ := p
      by_cases hk : k = k₀
      · simp only [mDelete, if_pos hk]
        exact List.sublist_cons_self _ _
      · simp only [mDelete, if_neg hk]
        exact ih.cons₂ _

theorem mem_mDelete {α β : Type} [DecidableEq α] {m : List (α × β)} {k : α} {p : α × β}
    (h : p ∈ mDelete m k) : p ∈ m :=
  (mDelete_sublist m k).mem h

theorem mGet_eq_none_of_not_mem_keys {α β : Type} [DecidableEq α] {m : List (α × β)}
    {k : α} (h : k ∉ m.map Prod.fst) : mGet m k = none := by
  induction m with
  | nil => rfl
  | cons p rest ih =>
      obtain ⟨k₀, v₀⟩ := p
      simp only [List.map_cons, List.mem_cons] at h
      push_neg at h
      simp [mGet, h.1, ih h.2]

theorem mGet_mDelete_self {α β : Type} [DecidableEq α] {m : List (α × β)} {k : α}
    (h : (m.map Prod.fst).Nodup) : mGet (mDelete m k) k = none := by
  induction m with
  | nil => rfl
  | cons p rest ih =>
      obtain ⟨k₀, v₀⟩ := p
      simp only [List.map_cons, List.nodup_cons] at h
      by_cases hk : k = k₀
      · subst hk
        simpa [mDelete] using mGet_eq_none_of_not_mem_keys h.1
      · simp [mDelete, mGet, hk, ih h.2]

theorem mGet_mDelete_ne {α β : Type} [DecidableEq α] (m : List (α × β)) (k k' : α)
    (h : k' ≠ k) : mGet (mDelete m k) k' = mGet m k' := by
  induction m with
  | nil => rfl
  | cons p rest ih =>
      obtain ⟨k₀, v₀⟩ := p
      by_cases hk : k = k₀
      · subst hk; simp [mDelete, mGet, h]
      · by_cases hk' : k' = k₀ <;> simp [mDelete, mGet, hk, hk', ih]

theorem mGet_mem {α β : Type} [DecidableEq α] {m : List (α × β)} {k : α} {v : β}
    (h : mGet m k = some v) : (k, v) ∈ m := by
  induction m with
  | nil => simp [mGet] at h
  | cons p rest ih =>
      obtain ⟨k₀, v₀⟩ := p
      by_cases hk : k = k₀
      · simp only [mGet, if_pos hk] at h
        injection h with h'
        subst hk
        subst h'
        exact List.mem_cons_self _ _
      · simp only [mGet, if_neg hk] at h
        exact List.mem_cons_of_mem _ (ih h)

theorem sendToClient_mem {st : SState} {cid : String} {m : Msg} {p : Nat × Msg}
    (h : p ∈ sendToClient st cid m) : p.2 = m := by
  unfold sendToClient at h
  rcases hc : mGet st.clients cid with _ | c <;> rw [hc] at h
  · simp at h
  · dsimp only at h
    by_cases ho : st.openWs.contains c.ws = true
    · rw [if_pos ho] at h
      obtain rfl := List.mem_singleton.mp h
      rfl
    · rw [if_neg ho] at h
      simp at h

theorem sendToClientOpt_mem {st : SState} {cid : Option String} {m : Msg} {p : Nat × Msg}
    (h : p ∈ sendToClientOpt st cid m) : p.2 = m := by
  cases cid with
  | none => simp [sendToClientOpt] at h
  | some c => exact sendToClient_mem h

theorem viewerJoin_unknown_session
    (st : SState) (clientId s uid : String) (c : Client)
    (hc : mGet st.clients clientId = some c)
    (hs : mGet st.sessions s = none)
    (hopen : st.openWs.contains c.ws = true) :
    handleViewerJoin st clientId s uid =
      (st, [(c.ws, Msg.error "Session not found or client invalid")]) := by
  unfold handleViewerJoin
  rw [hc, hs]
  dsimp only
  unfold sendError
  rw [if_pos hopen]

/-- C1: when the registered host `H` of session `s` sends an offer naming
`targetViewerId = V` and `V` is present in the session's viewer map, the
entire output of the handler is a single frame `{t:"offer", s, d, hostId:=H}`
written to exactly `V`'s transport, with the `d` payload unchanged; no other
connection receives anything from this offer. -/
theorem offer_routed_exactly_to_target
    (st : SState) (H s d V : String) (sess : Session) (vws : Nat) (cid : String)
    (c : Client)
    (hsess : mGet st.sessions s = some sess)
    (hhost : sess.hostClientId = H)
    (hview : mGet sess.viewers V = some vws)
    (hfind : getViewerClientId st vws = some cid)
    (hcli : mGet st.clients cid = some c)
    (hws : c.ws = vws)
    (hopen : st.openWs.contains vws = true) :
    handleOffer st H s d V = (st, [(vws, Msg.offer s d H)]) := by
  unfold handleOffer
  rw [hsess]
  dsimp only
  rw [if_pos hhost, hview]
  dsimp only
  rw [hfind]
  unfold sendToClientOpt sendToClient
  dsimp only
  rw [hcli]
  dsimp only
  rw [hws, if_pos hopen]

theorem offer_routed_exactly_to_target_witness :
    handleOffer stBase "h" "abc" "SDP" "v1" =
      (stBase, [(1, Msg.offer "abc" "SDP" "h")]) :=
  offer_routed_exactly_to_target stBase "h" "abc" "SDP" "v1" sessAbc 1 "c1" cV1
    rfl rfl rfl rfl rfl rfl rfl

/-- C2: in a session with host `"h"` (transport 0) and joined viewers `"v1"`
(client `"c1"`, transport 1) and `"v2"` (client `"c2"`, transport 2), a cursor
frame from `"c1"` is delivered only to the host's transport 0 — viewer
`"v2"` receives nothing, because the recipient set is built from viewer
*uids* while `sendToClient` is keyed by internal client ids.  This
contradicts the handler's own comment ("Broadcast cursor position to all
other clients in session (host + other viewers)"). -/
theorem cursor_broadcast_reaches_only_host :
    (handleCursor stBase "c1" "v1" "10,20").2 = [(0, Msg.cursor "v1" "10,20")] :=
  rfl

/-- C3: after host `A` declares readiness for `"abc"`, viewer `"v1"` joins,
and host `B` re-declares readiness (replacing the host pointer), the session
exists with host `B` and viewer `"v1"`; but when `A`'s transport then closes,
the session is deleted from the table — the disconnect handler only checks
the closing client's role, not whether it is still the session's current
host, so the claimed reconnect support is broken. -/
theorem old_host_close_destroys_rebound_session :
    (mGet st3.sessions "abc").map Session.hostClientId = some "B" ∧
    (mGet st3.sessions "abc").map (fun sess => mHas sess.viewers "v1") = some true ∧
    mGet (stepSt st3 (Ev.closeEv "A")).sessions "abc" = none :=
  ⟨rfl, rfl, rfl⟩

/-- C4 counterexample: session `"abc"` already maps viewer id `"v1"` to
transport 1, yet a viewer-join naming `"v1"` from fresh connection `"c3"`
(transport 3) is not rejected: it silently rebinds `"v1"` to transport 3
and replies with the usual viewer-joined/ack frames, no error. -/
theorem duplicate_viewer_join_overwrites_cex :
    (mGet stJoin.sessions "abc").map (fun sess => mGet sess.viewers "v1") =
      some (some 1) ∧
    (mGet (handleViewerJoin stJoin "c3" "abc" "v1").1.sessions "abc").map
        (fun sess => mGet sess.viewers "v1") = some (some 3) ∧
    (handleViewerJoin stJoin "c3" "abc" "v1").2 =
      [(0, Msg.viewerJoined "v1" 2), (3, Msg.viewerJoinedAck "abc" "v1")] :=
  ⟨rfl, rfl, rfl⟩

/-- C4 (amended): a viewer-join naming a viewerId already present in the
session does not fail — it silently overwrites the existing entry, binding
the id to the joining connection's transport without growing the viewer map,
increments the total-viewer counter, and replies with the ordinary join
frames; no error frame is sent. -/
theorem duplicate_viewer_join_overwrites
    (st : SState) (clientId s uid : String) (c : Client) (sess : Session)
    (hc : mGet st.clients clientId = some c)
    (hs : mGet st.sessions s = some sess)
    (hdup : (mGet sess.viewers uid).isSome = true) :
    mGet (handleViewerJoin st clientId s uid).1.sessions s =
      some { sess with
             viewers := mSet sess.viewers uid c.ws,
             totalViewers := sess.totalViewers + 1,
             peakViewers := max sess.peakViewers sess.viewers.length } ∧
    mGet (mSet sess.viewers uid c.ws) uid = some c.ws ∧
    (mSet sess.viewers uid c.ws).length = sess.viewers.length ∧
    ∀ p ∈ (handleViewerJoin st clientId s uid).2, ∀ emsg, p.2 ≠ Msg.error emsg := by
  have hlen : (mSet sess.viewers uid c.ws).length = sess.viewers.length :=
    mSet_length_of_present c.ws hdup
  refine ⟨?_, mGet_mSet_self _ _ _, hlen, ?_⟩
  · unfold handleViewerJoin
    rw [hc, hs]
    dsimp only
    rw [mGet_mSet_self, hlen]
  · intro p hp emsg
    unfold handleViewerJoin at hp
    rw [hc, hs] at hp
    dsimp only at hp
    rcases List.mem_append.mp hp with h' | h' <;>
      · rw [sendToClient_mem h']
        simp

theorem duplicate_viewer_join_overwrites_witness :
    mGet (handleViewerJoin stJoin "c3" "abc" "v1").1.sessions "abc" =
      some { sessAbc with
             viewers := mSet sessAbc.viewers "v1" 3,
             totalViewers := 3,
             peakViewers := 2 } :=
  (duplicate_viewer_join_overwrites stJoin "c3" "abc" "v1" cNew sessAbc
    rfl rfl rfl).1

/-- C5 counterexample: a viewer-join against the unknown session `"zzz"`
does reply with a single error frame to the sender, but its message text is
`"Session not found or client invalid"`, not the claimed `"Session not
found"`. -/
theorem unknown_session_join_error_text_cex :
    (handleViewerJoin stJoin "c3" "zzz" "v9").2 =
      [(3, Msg.error "Session not found or client invalid")] ∧
    (Msg.error "Session not found or client invalid" ==
      Msg.error "Session not found") = false :=
  ⟨rfl, by decide⟩

/-- C5 (amended): a viewer-join naming a session identifier not in the table
leaves the whole server state unchanged (so no session is created, the
sender's role stays unassigned and its connection stays open) and sends the
sender exactly one frame `{t:"error", message:"Session not found or client
invalid"}`. -/
theorem unknown_session_join_error
    (st : SState) (clientId s uid : String) (c : Client)
    (hc : mGet st.clients clientId = some c)
    (hs : mGet st.sessions s = none)
    (hopen : st.openWs.contains c.ws = true) :
    handleViewerJoin st clientId s uid =
      (st, [(c.ws, Msg.error "Session not found or client invalid")]) :=
  viewerJoin_unknown_session st clientId s uid c hc hs hopen

theorem unknown_session_join_error_witness :
    handleViewerJoin stJoin "c3" "zzz" "v9" =
      (stJoin, [(3, Msg.error "Session not found or client invalid")]) :=
  unknown_session_join_error stJoin "c3" "zzz" "v9" cNew rfl rfl rfl

/-- C7: a second host-ready for a live session is idempotent on session
existence — the table keeps a single record for the identifier (its length
is unchanged), that record's host pointer is rebound to the second sender's
connection, and (being a `with`-update of the old record) its viewer map is
exactly the previous one. -/
theorem host_ready_idempotent
    (st : SState) (B s : String) (now : Nat) (cB : Client) (sess : Session)
    (hc : mGet st.clients B = some cB)
    (hs : mGet st.sessions s = some sess) :
    mGet (handleHostReady st B s now).1.sessions s =
      some { sess with hostClientId := B, hostWs := cB.ws } ∧
    (handleHostReady st B s now).1.sessions.length = st.sessions.length := by
  unfold handleHostReady
  rw [hc, hs]
  dsimp only
  exact ⟨mGet_mSet_self _ _ _, mSet_length_of_present _ (by rw [hs]; rfl)⟩

theorem host_ready_idempotent_witness :
    mGet (handleHostReady stBase "c2" "abc" 9).1.sessions "abc" =
      some { sessAbc with hostClientId := "c2", hostWs := 2 } ∧
    (handleHostReady stBase "c2" "abc" 9).1.sessions.length =
      stBase.sessions.length :=
  host_ready_idempotent stBase "c2" "abc" 9 cV2 sessAbc rfl rfl

/-- C8 counterexample: `"c1"` is a viewer, not the host of `"abc"`, yet its
stats frame with 100 transferred bytes moves the session's counter from 0
to 100 — `handleStats` never checks that the sender is the session's host. -/
theorem stats_from_nonhost_accumulates_cex :
    sessAbc.hostClientId = "h" ∧
    ("h" == "c1") = false ∧
    cV1.ctype = some Role.viewer ∧
    (mGet stBase.sessions "abc").map Session.dataTransferred = some 0 ∧
    (mGet (handleStats stBase "c1" "abc" (some 100)).1.sessions "abc").map
      Session.dataTransferred = some 100 :=
  ⟨rfl, by decide, rfl, rfl, rfl⟩

/-- C8 (amended): a stats frame `{t:"stats", s, d}` for an existing session
`s` accumulates `d`'s transferred-byte count onto `s`'s counter and produces
no reply, regardless of which connection sends it — the sender's identity is
never consulted. -/
theorem stats_accumulates_for_any_sender
    (st : SState) (clientId s : String) (b : Option Nat) (sess : Session)
    (hs : mGet st.sessions s = some sess) :
    handleStats st clientId s b =
      ({ st with sessions := mSet st.sessions s { sess with dataTransferred := sess.dataTransferred + b.getD 0 } },
       []) := by
  unfold handleStats
  rw [hs]

theorem stats_accumulates_for_any_sender_witness :
    handleStats stBase "c1" "abc" (some 100) =
      ({ stBase with sessions := mSet stBase.sessions "abc" { sessAbc with dataTransferred := 100 } },
       []) :=
  stats_accumulates_for_any_sender stBase "c1" "abc" (some 100) sessAbc rfl

theorem markClosed_clients (st : SState) (cid : String) :
    (markClosed st cid).clients = st.clients := by
  unfold markClosed
  cases mGet st.clients cid <;> rfl

theorem markClosed_sessions (st : SState) (cid : String) :
    (markClosed st cid).sessions = st.sessions := by
  unfold markClosed
  cases mGet st.clients cid <;> rfl

theorem finalCleanup_sessions (st : SState) (cid : String) :
    (finalCleanup st cid).sessions = st.sessions := rfl

theorem handleDisconnection_host
    (st : SState) (H s : String) (chost : Client) (sess : Session)
    (hcl : mGet st.clients H = some chost)
    (hsid : chost.sessionId = some s)
    (htype : chost.ctype = some Role.host)
    (hs : mGet st.sessions s = some sess) :
    handleDisconnection st H =
      (finalCleanup
         { st with sessions := mDelete st.sessions s,
                   activeSessions := st.activeSessions - 1 } H,
       (sess.viewers.map (fun p =>
          sendToClientOpt st (getViewerClientId st p.2)
            (Msg.hostDisconnected s))).flatten) := by
  unfold handleDisconnection
  rw [hcl]
  dsimp only
  rw [hsid]
  dsimp only
  rw [hs]
  dsimp only
  rw [htype]

theorem mem_sendToClientOpt_of_deliverable
    (st : SState) (vws : Nat) (m : Msg)
    (h : viewerDeliverable st vws = true) :
    (vws, m) ∈ sendToClientOpt st (getViewerClientId st vws) m := by
  unfold viewerDeliverable at h
  cases hf : getViewerClientId st vws <;> rw [hf] at h
  · simp at h
  case some cid =>
    dsimp only at h
    cases hcg : mGet st.clients cid <;> rw [hcg] at h
    · simp at h
    case some c =>
      dsimp only at h
      rw [Bool.and_eq_true] at h
      obtain ⟨h1, h2⟩ := h
      have h1' : c.ws = vws := by simpa using h1
      unfold sendToClientOpt sendToClient
      dsimp only
      rw [hcg]
      dsimp only
      rw [h1', if_pos h2]
      exact List.mem_singleton.mpr rfl

/-- C6: when the transport of session `s`'s host closes, every viewer in
`s`'s viewer map (whose own transport is still resolvable and open) gets
`{t:"host-disconnected", s}` on its transport, the session is removed from
the table, and any subsequent viewer-join naming `s` from a live connection
is answered with the session-not-found error frame (and, the state being
returned unchanged, creates no session). -/
theorem host_disconnect_notifies_and_removes
    (st : SState) (H s : String) (chost : Client) (sess : Session)
    (hcl : mGet st.clients H = some chost)
    (htype : chost.ctype = some Role.host)
    (hsid : chost.sessionId = some s)
    (hs : mGet st.sessions s = some sess)
    (hnodup : (st.sessions.map Prod.fst).Nodup)
    (hdeliv : ∀ p ∈ sess.viewers, viewerDeliverable (markClosed st H) p.2 = true) :
    (∀ p ∈ sess.viewers, (p.2, Msg.hostDisconnected s) ∈ (onClose st H).2) ∧
    mGet (onClose st H).1.sessions s = none ∧
    (∀ cid c2 uid2, mGet (onClose st H).1.clients cid = some c2 →
       (onClose st H).1.openWs.contains c2.ws = true →
       handleViewerJoin (onClose st H).1 cid s uid2 =
         ((onClose st H).1,
          [(c2.ws, Msg.error "Session not found or client invalid")])) := by
  have h1 : mGet (markClosed st H).clients H = some chost := by
    rw [markClosed_clients]; exact hcl
  have h2 : mGet (markClosed st H).sessions s = some sess := by
    rw [markClosed_sessions]; exact hs
  have hd := handleDisconnection_host (markClosed st H) H s chost sess h1 hsid htype h2
  have hoc : onClose st H = handleDisconnection (markClosed st H) H := rfl
  have hsessions : (onClose st H).1.sessions = mDelete st.sessions s := by
    rw [hoc, hd, finalCleanup_sessions]
    dsimp only
    rw [markClosed_sessions]
  have hnone : mGet (onClose st H).1.sessions s = none := by
    rw [hsessions]
    exact mGet_mDelete_self hnodup
  refine ⟨?_, hnone, ?_⟩
  · intro p hp
    rw [hoc, hd]
    dsimp only
    refine List.mem_flatten.mpr ⟨_, List.mem_map_of_mem _ hp, ?_⟩
    exact mem_sendToClientOpt_of_deliverable _ _ _ (hdeliv p hp)
  · intro cid c2 uid2 hc2 hopen2
    exact viewerJoin_unknown_session _ cid s uid2 c2 hc2 hnone hopen2

theorem host_disconnect_notifies_and_removes_witness :
    ((1 : Nat), Msg.hostDisconnected "abc") ∈ (onClose stBase "h").2 ∧
    ((2 : Nat), Msg.hostDisconnected "abc") ∈ (onClose stBase "h").2 ∧
    mGet (onClose stBase "h").1.sessions "abc" = none ∧
    handleViewerJoin (onClose stBase "h").1 "c1" "abc" "v9" =
      ((onClose stBase "h").1,
       [(1, Msg.error "Session not found or client invalid")]) := by
  obtain ⟨hA, hB, hC⟩ :=
    host_disconnect_notifies_and_removes stBase "h" "abc" cH sessAbc
      rfl rfl rfl rfl (by decide) (by decide)
  exact ⟨hA ("v1", 1) (by decide), hA ("v2", 2) (by decide), hB,
         hC "c1" cV1 "v9" (by decide) (by decide)⟩

/-- C9: the health-check sweep runs on a fixed 30000 ms interval with a
60000 ms staleness window; on a tick, an open connection whose last pong is
older than the window is terminated (it is listed for termination, never
probed) and its cleanup is the fold of `handleDisconnection` — definitionally
the same function an ordinary transport close runs — while every other open
connection is sent a probe and not terminated; a pong refreshes the
connection's `lastPong`. -/
theorem heartbeat_tick_behavior :
    heartbeatIntervalMs = 30 * 1000 ∧
    heartbeatTimeoutMs = 60 * 1000 ∧
    (∀ st now cid c, (cid, c) ∈ st.clients →
       (st.clients.map Prod.fst).Nodup →
       (st.clients.map (fun p => p.2.ws)).Nodup →
       st.openWs.contains c.ws = true →
       ((heartbeatTimeoutMs < now - c.lastPong →
           cid ∈ (healthTick st now).2.2 ∧
           (c.ws, Msg.probe) ∉ (healthTick st now).2.1) ∧
        (¬ heartbeatTimeoutMs < now - c.lastPong →
           (c.ws, Msg.probe) ∈ (healthTick st now).2.1 ∧
           cid ∉ (healthTick st now).2.2))) ∧
    (∀ st now, stepSt st (Ev.tick now) =
       (healthTick st now).2.2.foldl (fun s c => (handleDisconnection s c).1)
         (healthTick st now).1) ∧
    (∀ st cid, stepSt st (Ev.closeEv cid) =
       (handleDisconnection (markClosed st cid) cid).1) ∧
    (∀ st cid now c, mGet st.clients cid = some c →
       handlePong st cid now =
         { st with clients := mSet st.clients cid { c with lastPong := now } }) := by
  refine ⟨rfl, rfl, ?_, fun _ _ => rfl, fun _ _ => rfl, ?_⟩
  · intro st now cid c hmem hkeys hws hopen
    constructor
    · intro hstale
      constructor
      · refine List.mem_map.mpr ⟨(cid, c), List.mem_filter.mpr ⟨hmem, ?_⟩, rfl⟩
        rw [Bool.and_eq_true]
        exact ⟨hopen, decide_eq_true hstale⟩
      · intro hprobe
        obtain ⟨p', hp', hpeq⟩ := List.mem_map.mp hprobe
        obtain ⟨hp'mem, hp'flag⟩ := List.mem_filter.mp hp'
        have hws' : p'.2.ws = c.ws := congrArg Prod.fst hpeq
        have : p' = (cid, c) :=
          List.inj_on_of_nodup_map hws hp'mem hmem hws'
        rw [this] at hp'flag
        rw [Bool.and_eq_true] at hp'flag
        have : decide (heartbeatTimeoutMs < now - c.lastPong) = false := by
          simpa using hp'flag.2
        rw [decide_eq_true hstale] at this
        exact Bool.noConfusion this
    · intro hfresh
      constructor
      · refine List.mem_map.mpr ⟨(cid, c), List.mem_filter.mpr ⟨hmem, ?_⟩, rfl⟩
        rw [Bool.and_eq_true]
        exact ⟨hopen, by simp [hfresh]⟩
      · intro hterm
        obtain ⟨p', hp', hpeq⟩ := List.mem_map.mp hterm
        obtain ⟨hp'mem, hp'flag⟩ := List.mem_filter.mp hp'
        have : p' = (cid, c) :=
          List.inj_on_of_nodup_map hkeys hp'mem hmem hpeq
        rw [this] at hp'flag
        rw [Bool.and_eq_true] at hp'flag
        exact hfresh (of_decide_eq_true hp'flag.2)
  · intro st cid now c hc
    unfold handlePong
    rw [hc]

theorem heartbeat_tick_behavior_witness :
    ("h" ∈ (healthTick stHb 100001).2.2 ∧
      ((0 : Nat), Msg.probe) ∉ (healthTick stHb 100001).2.1) ∧
    (((1 : Nat), Msg.probe) ∈ (healthTick stHb 100001).2.1 ∧
      "c1" ∉ (healthTick stHb 100001).2.2) ∧
    handlePong stHb "h" 77 =
      { stHb with clients := mSet stHb.clients "h" { cH with lastPong := 77 } } := by
  obtain ⟨_, _, hmain, _, _, hpong⟩ := heartbeat_tick_behavior
  refine ⟨?_, ?_, hpong stHb "h" 77 cH (by decide)⟩
  · exact (hmain stHb 100001 "h" cH (by decide) (by decide) (by decide)
      (by decide)).1 (by decide)
  · exact (hmain stHb 100001 "c1" { cV1 with lastPong := 100000 } (by decide)
      (by decide) (by decide) (by decide)).2 (by decide)

theorem SessionsWF_of_sessions_eq {st st' : SState}
    (heq : st'.sessions = st.sessions) (h : SessionsWF st) : SessionsWF st' := by
  unfold SessionsWF at *
  rw [heq]
  exact h

theorem wf_table_mSet {t : List (String × Session)} {k : String} {r : Session}
    (hnd : (t.map Prod.fst).Nodup)
    (hb : ∀ p ∈ t, p.2.viewers.length ≤ p.2.peakViewers)
    (hr : r.viewers.length ≤ r.peakViewers) :
    ((mSet t k r).map Prod.fst).Nodup ∧
      ∀ p ∈ mSet t k r, p.2.viewers.length ≤ p.2.peakViewers := by
  refine ⟨keys_mSet_nodup k r hnd, ?_⟩
  intro p hp
  rcases mem_mSet hp with rfl | hp'
  · exact hr
  · exact hb p hp'

theorem wf_table_mDelete {t : List (String × Session)} {k : String}
    (hnd : (t.map Prod.fst).Nodup)
    (hb : ∀ p ∈ t, p.2.viewers.length ≤ p.2.peakViewers) :
    ((mDelete t k).map Prod.fst).Nodup ∧
      ∀ p ∈ mDelete t k, p.2.viewers.length ≤ p.2.peakViewers :=
  ⟨hnd.sublist ((mDelete_sublist t k).map Prod.fst),
   fun p hp => hb p (mem_mDelete hp)⟩

theorem mono_table_mSet {t : List (String × Session)} {k s0 : String}
    {r a b : Session}
    (hget : mGet t s0 = some a)
    (hget' : mGet (mSet t k r) s0 = some b)
    (hmono : ∀ old, mGet t k = some old → old.peakViewers ≤ r.peakViewers) :
    a.peakViewers ≤ b.peakViewers := by
  by_cases hk : s0 = k
  · subst hk
    rw [mGet_mSet_self] at hget'
    injection hget' with hb'
    subst hb'
    exact hmono a hget
  · rw [mGet_mSet_ne _ _ _ _ hk] at hget'
    rw [hget] at hget'
    injection hget' with hb'
    subst hb'
    exact le_refl _

theorem mono_table_mDelete {t : List (String × Session)} {k s0 : String}
    {a b : Session}
    (hnd : (t.map Prod.fst).Nodup)
    (hget : mGet t s0 = some a)
    (hget' : mGet (mDelete t k) s0 = some b) :
    a.peakViewers ≤ b.peakViewers := by
  by_cases hk : s0 = k
  · subst hk
    rw [mGet_mDelete_self hnd] at hget'
    exact Option.noConfusion hget'
  · rw [mGet_mDelete_ne _ _ _ hk] at hget'
    rw [hget] at hget'
    injection hget' with hb'
    subst hb'
    exact le_refl _

theorem back_table_mDelete {t : List (String × Session)} {k s0 : String} {b : Session}
    (hnd : (t.map Prod.fst).Nodup)
    (hget' : mGet (mDelete t k) s0 = some b) : mGet t s0 = some b := by
  by_cases hk : s0 = k
  · subst hk
    rw [mGet_mDelete_self hnd] at hget'
    exact Option.noConfusion hget'
  · rw [mGet_mDelete_ne _ _ _ hk] at hget'
    exact hget'

theorem handleOffer_state (st : SState) (cId s d t : String) :
    (handleOffer st cId s d t).1 = st := by
  unfold handleOffer
  rcases hs : mGet st.sessions s with _ | sess
  · rfl
  · dsimp only
    by_cases hh : sess.hostClientId = cId
    · rw [if_pos hh]
      rcases hv : mGet sess.viewers t with _ | vws <;> rfl
    · rw [if_neg hh]

theorem handleAnswer_state (st : SState) (cId s d : String) :
    (handleAnswer st cId s d).1 = st := by
  unfold handleAnswer
  rcases hv : mGet st.clientToViewerId cId with _ | vid <;>
    rcases hs : mGet st.sessions s with _ | sess <;> rfl

theorem handleIceCandidate_state (st : SState) (cId s d t : String) :
    (handleIceCandidate st cId s d t).1 = st := by
  unfold handleIceCandidate
  rcases hc : mGet st.clients cId with _ | client
  · rfl
  · dsimp only
    rcases hsid : client.sessionId with _ | sid
    · rfl
    · dsimp only
      rcases hs : mGet st.sessions sid with _ | sess
      · rfl
      · dsimp only
        rcases ht : client.ctype with _ | r
        · rfl
        · cases r
          · dsimp only
            rcases hv : mGet sess.viewers t with _ | vws <;> rfl
          · rfl

theorem handleCursor_state (st : SState) (cId uid pos : String) :
    (handleCursor st cId uid pos).1 = st := by
  unfold handleCursor
  rcases hc : mGet st.clients cId with _ | client
  · rfl
  · dsimp only
    rcases hsid : client.sessionId with _ | sid
    · rfl
    · dsimp only
      rcases hs : mGet st.sessions sid with _ | sess <;> rfl

theorem handlePong_sessions (st : SState) (cid : String) (now : Nat) :
    (handlePong st cid now).sessions = st.sessions := by
  unfold handlePong
  rcases hc : mGet st.clients cid with _ | client <;> rfl

theorem handleHostReady_sessions (st : SState) (cid s : String) (now : Nat) :
    (handleHostReady st cid s now).1.sessions = st.sessions ∨
    (∃ w, mGet st.sessions s = none ∧
       (handleHostReady st cid s now).1.sessions =
         mSet st.sessions s
           { hostClientId := cid, hostWs := w, viewers := [], createdAt := now,
             totalViewers := 0, peakViewers := 0, dataTransferred := 0 }) ∨
    (∃ sess w, mGet st.sessions s = some sess ∧
       (handleHostReady st cid s now).1.sessions =
         mSet st.sessions s { sess with hostClientId := cid, hostWs := w }) := by
  unfold handleHostReady
  rcases hc : mGet st.clients cid with _ | client
  · exact Or.inl rfl
  · dsimp only
    rcases hs : mGet st.sessions s with _ | sess
    · exact Or.inr (Or.inl ⟨client.ws, rfl, rfl⟩)
    · exact Or.inr (Or.inr ⟨sess, client.ws, rfl, rfl⟩)

theorem handleViewerJoin_sessions (st : SState) (cid s uid : String) :
    (handleViewerJoin st cid s uid).1.sessions = st.sessions ∨
    (∃ sess w, mGet st.sessions s = some sess ∧
       (handleViewerJoin st cid s uid).1.sessions =
         mSet st.sessions s
           { sess with
             viewers := mSet sess.viewers uid w,
             totalViewers := sess.totalViewers + 1,
             peakViewers := max sess.peakViewers (mSet sess.viewers uid w).length }) := by
  unfold handleViewerJoin
  rcases hc : mGet st.clients cid with _ | client
  · exact Or.inl rfl
  · dsimp only
    rcases hs : mGet st.sessions s with _ | sess
    · exact Or.inl rfl
    · exact Or.inr ⟨sess, client.ws, rfl, rfl⟩

theorem handleStats_sessions (st : SState) (cid s : String) (b : Option Nat) :
    (handleStats st cid s b).1.sessions = st.sessions ∨
    (∃ sess, mGet st.sessions s = some sess ∧
       (handleStats st cid s b).1.sessions =
         mSet st.sessions s
           { sess with dataTransferred := sess.dataTransferred + b.getD 0 }) := by
  unfold handleStats
  rcases hs : mGet st.sessions s with _ | sess
  · exact Or.inl rfl
  · exact Or.inr ⟨sess, rfl, rfl⟩

theorem handleDisconnection_sessions (st : SState) (cid : String) :
    (handleDisconnection st cid).1.sessions = st.sessions ∨
    (∃ sid, (handleDisconnection st cid).1.sessions = mDelete st.sessions sid) ∨
    (∃ sid sess v', mGet st.sessions sid = some sess ∧
       v'.length ≤ sess.viewers.length ∧
       (handleDisconnection st cid).1.sessions =
         mSet st.sessions sid { sess with viewers := v' }) := by
  unfold handleDisconnection
  rcases hc : mGet st.clients cid with _ | client
  · exact Or.inl rfl
  · dsimp only
    rcases hsid : client.sessionId with _ | sid
    · exact Or.inl rfl
    · dsimp only
      rcases hs : mGet st.sessions sid with _ | sess
      · exact Or.inl rfl
      · dsimp only
        rcases ht : client.ctype with _ | r
        · exact Or.inl rfl
        · cases r
          · exact Or.inr (Or.inl ⟨sid, rfl⟩)
          · dsimp only
            rcases hvid : client.viewerId with _ | vid
            · exact Or.inr (Or.inr ⟨sid, sess, sess.viewers, hs, le_refl _, rfl⟩)
            · exact Or.inr (Or.inr ⟨sid, sess, mDelete sess.viewers vid, hs,
                (mDelete_sublist sess.viewers vid).length_le, rfl⟩)

theorem disc_wf_mono (st : SState) (cid : String) (h : SessionsWF st) :
    SessionsWF ((handleDisconnection st cid).1) ∧
    (∀ s0 b, mGet ((handleDisconnection st cid).1).sessions s0 = some b →
       ∃ a, mGet st.sessions s0 = some a ∧ a.peakViewers ≤ b.peakViewers) := by
  obtain ⟨hnd, hb⟩ := h
  rcases handleDisconnection_sessions st cid with heq | ⟨sid, heq⟩ |
    ⟨sid, sess, v', hg, hlen, heq⟩
  · refine ⟨⟨?_, ?_⟩, ?_⟩
    · rw [heq]; exact hnd
    · rw [heq]; exact hb
    · intro s0 b hgb
      rw [heq] at hgb
      exact ⟨b, hgb, le_refl _⟩
  · refine ⟨⟨?_, ?_⟩, ?_⟩
    · rw [heq]; exact (wf_table_mDelete hnd hb).1
    · rw [heq]; exact (wf_table_mDelete hnd hb).2
    · intro s0 b hgb
      rw [heq] at hgb
      exact ⟨b, back_table_mDelete hnd hgb, le_refl _⟩
  · have hrec : v'.length ≤ sess.peakViewers :=
      le_trans hlen (hb (sid, sess) (mGet_mem hg))
    refine ⟨⟨?_, ?_⟩, ?_⟩
    · rw [heq]; exact (wf_table_mSet hnd hb hrec).1
    · rw [heq]; exact (wf_table_mSet hnd hb hrec).2
    · intro s0 b hgb
      rw [heq] at hgb
      by_cases hk : s0 = sid
      · subst hk
        rw [mGet_mSet_self] at hgb
        injection hgb with hb'
        subst hb'
        exact ⟨sess, hg, le_refl _⟩
      · rw [mGet_mSet_ne _ _ _ _ hk] at hgb
        exact ⟨b, hgb, le_refl _⟩

theorem foldl_disc_wf_mono (cs : List String) (st : SState) (h : SessionsWF st) :
    SessionsWF (cs.foldl (fun s c => (handleDisconnection s c).1) st) ∧
    (∀ s0 b,
       mGet (cs.foldl (fun s c => (handleDisconnection s c).1) st).sessions s0 =
         some b →
       ∃ a, mGet st.sessions s0 = some a ∧ a.peakViewers ≤ b.peakViewers) := by
  induction cs generalizing st with
  | nil => exact ⟨h, fun s0 b hgb => ⟨b, hgb, le_refl _⟩⟩
  | cons c cs ih =>
      obtain ⟨h1, hback1⟩ := disc_wf_mono st c h
      obtain ⟨h2, hback2⟩ := ih _ h1
      refine ⟨h2, ?_⟩
      intro s0 b hgb
      obtain ⟨mid, hmid, hle⟩ := hback2 s0 b hgb
      obtain ⟨a, ha, hle'⟩ := hback1 s0 mid hmid
      exact ⟨a, ha, le_trans hle' hle⟩

theorem hostReady_wf_mono (st : SState) (cid s : String) (now : Nat)
    (h : SessionsWF st) :
    SessionsWF ((handleHostReady st cid s now).1) ∧
    (∀ s0 a b, mGet st.sessions s0 = some a →
       mGet ((handleHostReady st cid s now).1).sessions s0 = some b →
       a.peakViewers ≤ b.peakViewers) := by
  obtain ⟨hnd, hb⟩ := h
  rcases handleHostReady_sessions st cid s now with heq | ⟨w, hg, heq⟩ |
    ⟨sess, w, hg, heq⟩
  · refine ⟨⟨?_, ?_⟩, ?_⟩
    · rw [heq]; exact hnd
    · rw [heq]; exact hb
    · intro s0 a b hga hgb
      rw [heq, hga] at hgb
      injection hgb with h'
      subst h'
      exact le_refl _
  · refine ⟨⟨?_, ?_⟩, ?_⟩
    · rw [heq]
      refine (wf_table_mSet hnd hb ?_).1
      exact Nat.le_refl 0
    · rw [heq]
      refine (wf_table_mSet hnd hb ?_).2
      exact Nat.le_refl 0
    · intro s0 a b hga hgb
      rw [heq] at hgb
      refine mono_table_mSet hga hgb ?_
      intro old hold
      rw [hg] at hold
      exact Option.noConfusion hold
  · refine ⟨⟨?_, ?_⟩, ?_⟩
    · rw [heq]
      refine (wf_table_mSet hnd hb ?_).1
      exact hb (s, sess) (mGet_mem hg)
    · rw [heq]
      refine (wf_table_mSet hnd hb ?_).2
      exact hb (s, sess) (mGet_mem hg)
    · intro s0 a b hga hgb
      rw [heq] at hgb
      refine mono_table_mSet hga hgb ?_
      intro old hold
      rw [hg] at hold
      injection hold with h'
      subst h'
      exact le_refl _

theorem viewerJoin_wf_mono (st : SState) (cid s uid : String)
    (h : SessionsWF st) :
    SessionsWF ((handleViewerJoin st cid s uid).1) ∧
    (∀ s0 a b, mGet st.sessions s0 = some a →
       mGet ((handleViewerJoin st cid s uid).1).sessions s0 = some b →
       a.peakViewers ≤ b.peakViewers) := by
  obtain ⟨hnd, hb⟩ := h
  rcases handleViewerJoin_sessions st cid s uid with heq | ⟨sess, w, hg, heq⟩
  · refine ⟨⟨?_, ?_⟩, ?_⟩
    · rw [heq]; exact hnd
    · rw [heq]; exact hb
    · intro s0 a b hga hgb
      rw [heq, hga] at hgb
      injection hgb with h'
      subst h'
      exact le_refl _
  · refine ⟨⟨?_, ?_⟩, ?_⟩
    · rw [heq]
      refine (wf_table_mSet hnd hb ?_).1
      exact le_max_right _ _
    · rw [heq]
      refine (wf_table_mSet hnd hb ?_).2
      exact le_max_right _ _
    · intro s0 a b hga hgb
      rw [heq] at hgb
      refine mono_table_mSet hga hgb ?_
      intro old hold
      rw [hg] at hold
      injection hold with h'
      subst h'
      exact le_max_left _ _

theorem stats_wf_mono (st : SState) (cid s : String) (b0 : Option Nat)
    (h : SessionsWF st) :
    SessionsWF ((handleStats st cid s b0).1) ∧
    (∀ s0 a b, mGet st.sessions s0 = some a →
       mGet ((handleStats st cid s b0).1).sessions s0 = some b →
       a.peakViewers ≤ b.peakViewers) := by
  obtain ⟨hnd, hb⟩ := h
  rcases handleStats_sessions st cid s b0 with heq | ⟨sess, hg, heq⟩
  · refine ⟨⟨?_, ?_⟩, ?_⟩
    · rw [heq]; exact hnd
    · rw [heq]; exact hb
    · intro s0 a b hga hgb
      rw [heq, hga] at hgb
      injection hgb with h'
      subst h'
      exact le_refl _
  · refine ⟨⟨?_, ?_⟩, ?_⟩
    · rw [heq]
      refine (wf_table_mSet hnd hb ?_).1
      exact hb (s, sess) (mGet_mem hg)
    · rw [heq]
      refine (wf_table_mSet hnd hb ?_).2
      exact hb (s, sess) (mGet_mem hg)
    · intro s0 a b hga hgb
      rw [heq] at hgb
      refine mono_table_mSet hga hgb ?_
      intro old hold
      rw [hg] at hold
      injection hold with h'
      subst h'
      exact le_refl _

theorem step_wf_mono (st : SState) (ev : Ev) (h : SessionsWF st) :
    SessionsWF (stepSt st ev) ∧
    (∀ s0 a b, mGet st.sessions s0 = some a →
       mGet (stepSt st ev).sessions s0 = some b →
       a.peakViewers ≤ b.peakViewers) := by
  have hid : ∀ st' : SState, st'.sessions = st.sessions →
      SessionsWF st' ∧
      (∀ s0 a b, mGet st.sessions s0 = some a →
         mGet st'.sessions s0 = some b → a.peakViewers ≤ b.peakViewers) := by
    intro st' heq
    refine ⟨SessionsWF_of_sessions_eq heq h, ?_⟩
    intro s0 a b hga hgb
    rw [heq, hga] at hgb
    injection hgb with h'
    subst h'
    exact le_refl _
  cases ev with
  | connect cid ws now => exact hid _ rfl
  | pongEv cid now => exact hid _ (handlePong_sessions st cid now)
  | closeEv cid =>
      have hwfm : SessionsWF (markClosed st cid) :=
        SessionsWF_of_sessions_eq (markClosed_sessions st cid) h
      obtain ⟨h1, hback⟩ := disc_wf_mono (markClosed st cid) cid hwfm
      refine ⟨h1, ?_⟩
      intro s0 a b hga hgb
      obtain ⟨a', ha', hle⟩ := hback s0 b hgb
      rw [markClosed_sessions, hga] at ha'
      injection ha' with h'
      subst h'
      exact hle
  | tick now =>
      have hwft : SessionsWF ((healthTick st now).1) :=
        SessionsWF_of_sessions_eq rfl h
      obtain ⟨h1, hback⟩ := foldl_disc_wf_mono ((healthTick st now).2.2) _ hwft
      refine ⟨h1, ?_⟩
      intro s0 a b hga hgb
      obtain ⟨a', ha', hle⟩ := hback s0 b hgb
      rw [show (healthTick st now).1.sessions = st.sessions from rfl, hga] at ha'
      injection ha' with h'
      subst h'
      exact hle
  | inMsg cid m now =>
      have hstep : stepSt st (Ev.inMsg cid m now) = (handleMessage st cid m now).1 :=
        rfl
      rcases hc : mGet st.clients cid with _ | cl
      · have hmm : (handleMessage st cid m now).1 = st := by
          unfold handleMessage
          rw [hc]
        exact hid _ (by rw [hstep, hmm])
      · cases m with
        | hostReady s =>
            have hmm : handleMessage st cid (InMsg.hostReady s) now =
                handleHostReady st cid s now := by
              unfold handleMessage
              rw [hc]
            rw [hstep, hmm]
            exact hostReady_wf_mono st cid s now h
        | viewerJoin s uid =>
            have hmm : handleMessage st cid (InMsg.viewerJoin s uid) now =
                handleViewerJoin st cid s uid := by
              unfold handleMessage
              rw [hc]
            rw [hstep, hmm]
            exact viewerJoin_wf_mono st cid s uid h
        | offer s d t =>
            have hmm : handleMessage st cid (InMsg.offer s d t) now =
                handleOffer st cid s d t := by
              unfold handleMessage
              rw [hc]
            rw [hstep, hmm]
            exact hid _ (by rw [handleOffer_state])
        | answer s d =>
            have hmm : handleMessage st cid (InMsg.answer s d) now =
                handleAnswer st cid s d := by
              unfold handleMessage
              rw [hc]
            rw [hstep, hmm]
            exact hid _ (by rw [handleAnswer_state])
        | ice s d t =>
            have hmm : handleMessage st cid (InMsg.ice s d t) now =
                handleIceCandidate st cid s d t := by
              unfold handleMessage
              rw [hc]
            rw [hstep, hmm]
            exact hid _ (by rw [handleIceCandidate_state])
        | cursor uid pos =>
            have hmm : handleMessage st cid (InMsg.cursor uid pos) now =
                handleCursor st cid uid pos := by
              unfold handleMessage
              rw [hc]
            rw [hstep, hmm]
            exact hid _ (by rw [handleCursor_state])
        | stats s b =>
            have hmm : handleMessage st cid (InMsg.stats s b) now =
                handleStats st cid s b := by
              unfold handleMessage
              rw [hc]
            rw [hstep, hmm]
            exact stats_wf_mono st cid s b h
        | ping =>
            have hmm : handleMessage st cid InMsg.ping now =
                (st, sendToClient st cid Msg.pong) := by
              unfold handleMessage
              rw [hc]
            rw [hstep, hmm]
            exact hid _ rfl
        | unknown =>
            have hmm : handleMessage st cid InMsg.unknown now = (st, []) := by
              unfold handleMessage
              rw [hc]
            rw [hstep, hmm]
            exact hid _ rfl

/-- C10: the session table of the freshly constructed server satisfies, and
every event transition preserves, the invariant that each session's
peak-viewer counter is at least the current size of its viewer map; and
while a session stays in the table across a transition, its peak-viewer
counter never decreases. -/
theorem peak_viewers_invariant :
    SessionsWF initState ∧
    (∀ st ev, SessionsWF st → SessionsWF (stepSt st ev)) ∧
    (∀ st ev s sess sess', SessionsWF st →
       mGet st.sessions s = some sess →
       mGet (stepSt st ev).sessions s = some sess' →
       sess.peakViewers ≤ sess'.peakViewers) :=
  ⟨⟨List.nodup_nil, fun p hp => absurd hp (List.not_mem_nil p)⟩,
   fun st ev h => (step_wf_mono st ev h).1,
   fun st ev s sess sess' h hga hgb => (step_wf_mono st ev h).2 s sess sess' hga hgb⟩

theorem peak_viewers_invariant_witness :
    SessionsWF (stepSt stJoin (Ev.inMsg "c3" (InMsg.viewerJoin "abc" "v3") 7)) ∧
    sessAbc.peakViewers ≤ 3 :=
  ⟨peak_viewers_invariant.2.1 stJoin
     (Ev.inMsg "c3" (InMsg.viewerJoin "abc" "v3") 7) (by decide),
   peak_viewers_invariant.2.2 stJoin
     (Ev.inMsg "c3" (InMsg.viewerJoin "abc" "v3") 7) "abc" sessAbc
     { sessAbc with
       viewers := [("v1", 1), ("v2", 2), ("v3", 3)],
       totalViewers := 3, peakViewers := 3 }
     (by decide) (by decide) (by decide)⟩

end Relay
